import Mathlib

/-!
Verification development for the oanda-trading-bot repository.

Shallow embedding of the parts of the code the claims concern:
* `src/oanda_bot/broker.py`  — pip sizes, price rounding, risk-managed sizing
* `src/main.py`              — `round_price`, `handle_bar`, the main event loop
* `src/oanda_bot/backtest.py` — `run_backtest` position engine
* `src/strategy/base.py` and `src/oanda_bot/meta_optimize.py` — strategy arms,
  `update_trade_result`, `select_strategy_ucb`
* `src/oanda_bot/data/core.py` — `stream_bars` reconnection loop

Prices and P&L are modelled with exact rationals (`ℚ`); Python `round(x, d)`
(banker's rounding) is modelled by an exact round-half-to-even on `ℚ`, and
Python `int(x)` (truncation toward zero) by `int_trunc`.
-/

set_option maxRecDepth 2048

namespace OandaBot

/-- Trade side; the Python code uses the strings "BUY" and "SELL"
(normalized with `.upper()` before comparison). -/
inductive Side
  | buy
  | sell
deriving DecidableEq, Repr

/-! ### broker.py -/

/-- `broker._pip_size`: 0.01 for instruments whose name ends in "JPY",
0.0001 otherwise (broker.py lines 25-30). -/
def pip_size (instrument : String) : ℚ :=
  if instrument.endsWith "JPY" then 1 / 100 else 1 / 10000

/-- `int(round(-math.log10(_pip_size(instrument))))` (broker.py line 93):
2 for JPY instruments (pip 0.01), 4 otherwise (pip 0.0001). -/
def pip_decimals (instrument : String) : ℕ :=
  if instrument.endsWith "JPY" then 2 else 4

/-- Round-half-to-even of a rational to an integer, the tie-breaking rule of
Python's built-in `round`.  Away from ties it agrees with `round` (nearest,
halves up). -/
def halfEvenRound (q : ℚ) : ℤ :=
  if q - ⌊q⌋ = 1 / 2 then (if ⌊q⌋ % 2 = 0 then ⌊q⌋ else ⌊q⌋ + 1) else round q

/-- Python `round(q, d)`: round-half-to-even at `d` decimal places. -/
def pyRoundDec (q : ℚ) (d : ℕ) : ℚ :=
  (halfEvenRound (q * 10 ^ d) : ℚ) / 10 ^ d

/-- Python `int(q)`: truncation toward zero. -/
def int_trunc (q : ℚ) : ℤ :=
  if 0 ≤ q then ⌊q⌋ else -⌊-q⌋

/-- `MAX_UNITS` hard ceiling on position size (broker.py line 100). -/
def MAX_UNITS : ℤ := 1000

/-- The stop price after the one-pip nudge applied when `stop_price == price`
(broker.py lines 85-91). -/
def nudged_stop (instrument : String) (side : Side) (price stop_price : ℚ) : ℚ :=
  if stop_price = price then
    (if side = Side.buy then price - pip_size instrument else price + pip_size instrument)
  else stop_price

/-- The stop price after the nudge and the rounding to instrument precision
(broker.py lines 85-94). -/
def rounded_stop (instrument : String) (side : Side) (price stop_price : ℚ) : ℚ :=
  pyRoundDec (nudged_stop instrument side price stop_price) (pip_decimals instrument)

/-- Result of `place_risk_managed_order`: the signed units, the stop price and
optional take-profit price actually attached to the order (the Python code
formats these into the `stopLossOnFill` / `takeProfitOnFill` strings). -/
structure OrderResult where
  units : ℤ
  stopPrice : ℚ
  tpPrice : Option ℚ
deriving DecidableEq, Repr

/-- `broker.place_risk_managed_order` (broker.py lines 69-132), the sizing and
price-adjustment core.  Returns `none` when the size computation divides by
zero (Python would raise `ZeroDivisionError`). -/
def place_risk_managed_order (instrument : String) (side : Side)
    (price stop_price equity risk_pct : ℚ) (tp_price : Option ℚ) : Option OrderResult :=
  let stop2 := rounded_stop instrument side price stop_price
  let tp2 := tp_price.map (fun t => pyRoundDec t (pip_decimals instrument))
  let risk_dollar := equity * risk_pct
  let per_unit_risk := |price - stop2|
  if per_unit_risk = 0 then none
  else
    let units0 := int_trunc (risk_dollar / per_unit_risk)
    let units1 := if units0 > MAX_UNITS then MAX_UNITS else units0
    some { units := if side = Side.sell then -units1 else units1,
           stopPrice := stop2,
           tpPrice := tp2 }

/-! ### main.py: round_price -/

/-- The `PRECISION` table of main.py lines 209-227. -/
def PRECISION : List (String × ℕ) :=
  [("GBP_JPY", 2), ("EUR_JPY", 2), ("NZD_JPY", 2), ("USD_JPY", 2),
   ("GBP_USD", 5), ("EUR_USD", 5), ("AUD_USD", 5), ("USD_CAD", 5), ("USD_CHF", 5),
   ("AUD_JPY", 2), ("EUR_GBP", 5), ("GBP_AUD", 5), ("EUR_AUD", 5)]

/-- The decimal precision used by `main.round_price` (main.py lines 230-233):
table lookup with default 5. -/
def round_price_prec (instrument : String) : ℕ :=
  (PRECISION.lookup instrument).getD 5

/-- `main.round_price` formats the price with `round_price_prec` digits; we
model the numeric value of the formatted string (Python f-string `:.Nf`
rounds half-to-even, like `round`). -/
def round_price (instrument : String) (price : ℚ) : ℚ :=
  pyRoundDec price (round_price_prec instrument)

/-! ### backtest.py: the position engine -/

/-- One OANDA candle; only the `mid` high/low/close fields are read by the
engine (backtest.py lines 83-85). -/
structure Candle where
  h : ℚ
  l : ℚ
  c : ℚ
deriving DecidableEq, Repr

/-- `collections.deque(maxlen = m)` append: keep the last `m` elements. -/
def dequeAppend {α : Type} (maxlen : ℕ) (l : List α) (a : α) : List α :=
  let l2 := l ++ [a]
  l2.drop (l2.length - maxlen)

/-- The strategy parameters read by the engine and by
`macd_trends.sl_tp_levels`, with the `params.get` defaults from the source
(`max_duration` 0, `atr_period` 14, `sl_mult` 1.0, `tp_mult` 1.0). -/
structure Params where
  maxDuration : ℕ := 0
  atrPeriod : ℕ := 14
  slMult : ℚ := 1
  tpMult : ℚ := 1
deriving DecidableEq, Repr

/-- A strategy plugin as used by `run_backtest`: the `next_signal` method
(which may update internal strategy state `σ`), the `update_trade_result`
feedback hook, and the parameter dict. -/
structure Strategy (σ : Type) where
  nextSignal : σ → List Candle → Option Side × σ
  update : σ → Bool → ℚ → σ
  params : Params

/-- True ranges of consecutive candle pairs:
`max(high - low, |high - prev_close|, |low - prev_close|)`
(macd_trends.py lines 109-121). -/
def trueRanges : List Candle → List ℚ
  | [] => []
  | [_] => []
  | a :: b :: rest =>
    max (b.h - b.l) (max |b.h - a.c| |b.l - a.c|) :: trueRanges (b :: rest)

/-- `macd_trends.compute_atr` (macd_trends.py lines 91-122): mean true range
over the last `period + 1` bars, 0 when there are not enough bars. -/
def compute_atr (bars : List Candle) (period : ℕ) : ℚ :=
  if bars.length < period + 1 then 0
  else
    let window := bars.drop (bars.length - (period + 1))
    let trs := trueRanges window
    trs.sum / trs.length

/-- `macd_trends.sl_tp_levels` (macd_trends.py lines 125-145): ATR-multiple
stop-loss and take-profit around the last close.  The source indexes
`bars[-1]` (raising on an empty list, which the engine never passes); the
model returns 0 for the price in that unreachable case. -/
def sl_tp_levels (bars : List Candle) (side : Side) (p : Params) : ℚ × ℚ :=
  let price := (bars.getLast?.map Candle.c).getD 0
  let atr := compute_atr bars p.atrPeriod
  match side with
  | Side.buy => (price - p.slMult * atr, price + p.tpMult * atr)
  | Side.sell => (price + p.slMult * atr, price - p.tpMult * atr)

/-- An open position (backtest.py lines 126-132). -/
structure Position where
  side : Side
  entryPrice : ℚ
  sl : ℚ
  tp : ℚ
  entryIdx : ℕ
deriving DecidableEq, Repr

/-- Exit reason as logged by the engine (backtest.py line 108). -/
inductive ExitReason
  | tp
  | sl
  | time
deriving DecidableEq, Repr

/-- `hit_sl` condition (backtest.py lines 87-88):
`(side == "BUY" and price_low <= sl) or (side == "SELL" and price_high >= sl)`. -/
def hit_sl (side : Side) (sl : ℚ) (c : Candle) : Prop :=
  (side = Side.buy ∧ c.l ≤ sl) ∨ (side = Side.sell ∧ sl ≤ c.h)

instance (side : Side) (sl : ℚ) (c : Candle) : Decidable (hit_sl side sl c) := by
  unfold hit_sl
  infer_instance

/-- `hit_tp` condition (backtest.py lines 89-90):
`(side == "BUY" and price_high >= tp) or (side == "SELL" and price_low <= tp)`. -/
def hit_tp (side : Side) (tp : ℚ) (c : Candle) : Prop :=
  (side = Side.buy ∧ tp ≤ c.h) ∨ (side = Side.sell ∧ c.l ≤ tp)

instance (side : Side) (tp : ℚ) (c : Candle) : Decidable (hit_tp side tp c) := by
  unfold hit_tp
  infer_instance

/-- The exit evaluation of backtest.py lines 87-108: whether the position
exits on this candle, and with which reason and exit price
(`exit_price = tp if hit_tp else sl if hit_sl else price_close`,
reason `"TP" if hit_tp else "SL" if hit_sl else "TIME"`; the time condition
is `max_dur and (idx - entry_idx) >= max_dur`). -/
def exitDecision (maxDur idx : ℕ) (pos : Position) (c : Candle) :
    Option (ExitReason × ℚ) :=
  if hit_sl pos.side pos.sl c ∨ hit_tp pos.side pos.tp c ∨
      (maxDur ≠ 0 ∧ maxDur ≤ idx - pos.entryIdx) then
    some (if hit_tp pos.side pos.tp c then (ExitReason.tp, pos.tp)
          else if hit_sl pos.side pos.sl c then (ExitReason.sl, pos.sl)
          else (ExitReason.time, c.c))
  else none

/-- Events mirroring the engine's per-trade `logger.debug` ENTER / EXIT lines
(backtest.py lines 105-109 and 133-136). -/
inductive BTEvent
  | enter (idx : ℕ) (side : Side) (entryPrice sl tp : ℚ)
  | exitTrade (idx : ℕ) (reason : ExitReason) (exitPrice pnl : ℚ)
deriving DecidableEq, Repr

/-- The mutable state of the `run_backtest` loop (backtest.py lines 64-73),
plus the event log and a count of `update_trade_result` invocations
(backtest.py line 117). -/
structure BTState (σ : Type) where
  wins : ℕ
  losses : ℕ
  trades : ℕ
  totalWin : ℚ
  totalLoss : ℚ
  bars : List Candle
  position : Option Position
  stratState : σ
  hookCalls : ℕ
  log : List BTEvent

/-- Initial loop state. -/
def initBTState {σ : Type} (s0 : σ) : BTState σ :=
  { wins := 0, losses := 0, trades := 0, totalWin := 0, totalLoss := 0,
    bars := [], position := none, stratState := s0, hookCalls := 0, log := [] }

/-- PnL of an exit: `exit_price - entry_price` for BUY,
`entry_price - exit_price` for SELL (backtest.py lines 100-104). -/
def exitPnl (pos : Position) (exitPrice : ℚ) : ℚ :=
  if pos.side = Side.buy then exitPrice - pos.entryPrice
  else pos.entryPrice - exitPrice

/-- The "handle open position exits" block (backtest.py lines 78-118):
`pnl > 0` is a win, otherwise a loss (absolute value added to total_loss);
the trade counter, the feedback hook `update_trade_result(pnl > 0, pnl)`
and the EXIT log line all fire here, and the position is destroyed. -/
def exitPhase {σ : Type} (strat : Strategy σ) (idx : ℕ) (c : Candle)
    (st : BTState σ) : BTState σ :=
  match st.position with
  | none => st
  | some pos =>
    match exitDecision strat.params.maxDuration idx pos c with
    | none => st
    | some rp =>
      { st with
        wins := if 0 < exitPnl pos rp.2 then st.wins + 1 else st.wins,
        totalWin := if 0 < exitPnl pos rp.2 then st.totalWin + exitPnl pos rp.2
                    else st.totalWin,
        losses := if 0 < exitPnl pos rp.2 then st.losses else st.losses + 1,
        totalLoss := if 0 < exitPnl pos rp.2 then st.totalLoss
                     else st.totalLoss + |exitPnl pos rp.2|,
        trades := st.trades + 1,
        stratState := strat.update st.stratState
          (decide (0 < exitPnl pos rp.2)) (exitPnl pos rp.2),
        hookCalls := st.hookCalls + 1,
        log := st.log ++ [BTEvent.exitTrade idx rp.1 rp.2 (exitPnl pos rp.2)],
        position := none }

/-- The "look for a new entry signal" block (backtest.py lines 121-136);
`n` is `len(candles)`.  It runs on the same iteration whenever the position
slot is free — including immediately after an exit — except on the final
candle (`idx < len(candles) - 1`). -/
def entryPhase {σ : Type} (strat : Strategy σ) (n idx : ℕ) (c : Candle)
    (st : BTState σ) : BTState σ :=
  if st.position = none ∧ idx < n - 1 then
    match strat.nextSignal st.stratState st.bars with
    | (some side, s2) =>
      { st with
        stratState := s2,
        position := some ⟨side, c.c,
          (sl_tp_levels st.bars side strat.params).1,
          (sl_tp_levels st.bars side strat.params).2, idx⟩,
        log := st.log ++ [BTEvent.enter idx side c.c
          (sl_tp_levels st.bars side strat.params).1
          (sl_tp_levels st.bars side strat.params).2] }
    | (none, s2) => { st with stratState := s2 }
  else st

/-- One iteration of the `for idx, candle in enumerate(candles)` loop
(backtest.py lines 74-136): append the candle to the warm-up deque, evaluate
exits, then evaluate a new entry on the same bar. -/
def btStep {σ : Type} (strat : Strategy σ) (warmup n idx : ℕ) (c : Candle)
    (st : BTState σ) : BTState σ :=
  let st1 := { st with bars := dequeAppend (warmup + 5) st.bars c }
  entryPhase strat n idx c (exitPhase strat idx c st1)

/-- `run_backtest`'s loop: fold `btStep` over the enumerated candle list,
returning the final loop state. -/
def run_backtest_state {σ : Type} (strat : Strategy σ) (s0 : σ)
    (candles : List Candle) (warmup : ℕ) : BTState σ :=
  candles.enum.foldl (fun st p => btStep strat warmup candles.length p.1 p.2 st)
    (initBTState s0)

/-- The stats dictionary built by `run_backtest` (backtest.py lines 138-168). -/
structure BTStats where
  trades : ℕ
  wins : ℕ
  losses : ℕ
  win_rate : ℚ
  avg_win : ℚ
  avg_loss : ℚ
  expectancy : ℚ
  total_pnl : ℚ
deriving DecidableEq, Repr

/-- `run_backtest` (backtest.py lines 54-168): run the loop and report the
stats dictionary. -/
def run_backtest {σ : Type} (strat : Strategy σ) (s0 : σ)
    (candles : List Candle) (warmup : ℕ) : BTStats :=
  let st := run_backtest_state strat s0 candles warmup
  let win_rate := if st.trades ≠ 0 then (st.wins : ℚ) / st.trades else 0
  let avg_win := if st.wins ≠ 0 then st.totalWin / st.wins else 0
  let avg_loss := if st.losses ≠ 0 then st.totalLoss / st.losses else 0
  { trades := st.trades, wins := st.wins, losses := st.losses,
    win_rate := win_rate, avg_win := avg_win, avg_loss := avg_loss,
    expectancy := win_rate * avg_win - (1 - win_rate) * avg_loss,
    total_pnl := st.totalWin - st.totalLoss }

/-- Number of EXIT events in a log. -/
def countExits (log : List BTEvent) : ℕ :=
  (log.filter fun e => match e with | BTEvent.exitTrade _ _ _ _ => true | _ => false).length

/-- Number of ENTER events in a log. -/
def countEnters (log : List BTEvent) : ℕ :=
  (log.filter fun e => match e with | BTEvent.enter _ _ _ _ _ => true | _ => false).length

/-- Sum of the PnL fields of the EXIT events in a log. -/
def sumExitPnl (log : List BTEvent) : ℚ :=
  (log.map fun e => match e with | BTEvent.exitTrade _ _ _ pnl => pnl | _ => 0).sum

/-! ### strategy/base.py and meta_optimize.py: strategy arms and UCB1 -/

/-- A strategy arm as seen by the bandit meta-optimizer: the
`name` / `pull_count` / `cumulative_pnl` attributes kept on `BaseStrategy`
(strategy/base.py lines 36-41). -/
structure StrategyArm where
  name : String
  pullCount : ℕ
  cumulativePnl : ℚ
deriving DecidableEq, Repr

/-- `BaseStrategy.update_trade_result` (strategy/base.py lines 65-78):
`pull_count += 1; cumulative_pnl += pnl`.  The `win` flag is accepted but
unused by the base implementation. -/
def update_trade_result (a : StrategyArm) (win : Bool) (pnl : ℚ) : StrategyArm :=
  { a with pullCount := a.pullCount + 1, cumulativePnl := a.cumulativePnl + pnl }

/-- The UCB1 score of an arm (meta_optimize.py lines 87-89):
`cumulative_pnl / pull_count + sqrt(2 * log(total_pulls) / pull_count)`. -/
noncomputable def ucbScore (totalPulls : ℕ) (a : StrategyArm) : ℝ :=
  (a.cumulativePnl : ℝ) / a.pullCount + Real.sqrt (2 * Real.log totalPulls / a.pullCount)

/-- The loop of `select_strategy_ucb` (meta_optimize.py lines 82-93).  The
accumulator models the `best` / `best_score` pair; `best_score` starts at
`float('-inf')`, so the first scored arm always replaces an empty
accumulator (any real score exceeds negative infinity). -/
noncomputable def selectGo (totalPulls : ℕ) :
    List StrategyArm → Option (StrategyArm × ℝ) → Option StrategyArm
  | [], none => none
  | [], some bb => some bb.1
  | a :: rest, none =>
    if a.pullCount = 0 then some a
    else selectGo totalPulls rest (some (a, ucbScore totalPulls a))
  | a :: rest, some bb =>
    if a.pullCount = 0 then some a
    else if bb.2 < ucbScore totalPulls a then
      selectGo totalPulls rest (some (a, ucbScore totalPulls a))
    else selectGo totalPulls rest (some bb)

/-- `select_strategy_ucb` (meta_optimize.py lines 72-93). -/
noncomputable def select_strategy_ucb (strategies : List StrategyArm)
    (totalPulls : ℕ) : Option StrategyArm :=
  selectGo totalPulls strategies none

/-! ### data/core.py: stream_bars reconnection loop -/

/-- One observable event of the `stream_bars` generator loop
(data/core.py lines 200-220): either the inner generator produces a bar, or
the subscription fails with an error (including the stall timeout). -/
inductive StreamEvent
  | bar (b : ℕ)
  | err
deriving DecidableEq, Repr

/-- One transition of the retry state machine: given the current
`retry_count`, an event yields the new `retry_count`, an optional sleep
duration in seconds, and an optionally yielded bar.
On a bar: `retry_count = 0` then `yield bar` (line 206-207).
On an error: `retry_count += 1`, `backoff = min(2 ** retry_count, 60)`,
`time.sleep(backoff)` (lines 209-219). -/
def streamStep (retry : ℕ) : StreamEvent → ℕ × Option ℕ × Option ℕ
  | StreamEvent.bar b => (0, none, some b)
  | StreamEvent.err => (retry + 1, some (min (2 ^ (retry + 1)) 60), none)

/-- The trace of retry-machine transitions over a list of stream events. -/
def streamTrace (retry : ℕ) : List StreamEvent → List (ℕ × Option ℕ × Option ℕ)
  | [] => []
  | e :: rest =>
    let t := streamStep retry e
    t :: streamTrace t.1 rest

/-- The retry counter after processing a list of stream events. -/
def finalRetry (retry : ℕ) : List StreamEvent → ℕ
  | [] => retry
  | e :: rest => finalRetry (streamStep retry e).1 rest

/-! ### main.py: handle_bar and the main event loop -/

/-- The exception classes distinguished by the main event loop
(main.py lines 544-557). -/
inductive PyExc
  | keyboardInterrupt
  | chunkedEncoding
  | generic
deriving DecidableEq, Repr

/-- A live strategy plugin as called by `handle_bar`: `next_signal` over the
close-price history, which may raise. -/
structure LiveStrategy where
  nextSignal : List ℚ → Except PyExc (Option Side)

/-- History append for one pair: dict of `deque(maxlen=300)` per pair
(main.py line 275). -/
def hist_append (h : List (String × List ℚ)) (p : String) (px : ℚ) :
    List (String × List ℚ) :=
  h.map fun e => if e.1 = p then (e.1, dequeAppend 300 e.2 px) else e

/-- Close-price history of one pair (empty for unknown pairs). -/
def hist_get (h : List (String × List ℚ)) (p : String) : List ℚ :=
  (h.lookup p).getD []

/-- The signal-aggregation loop of `handle_bar` (main.py lines 472-477):
first non-`None` signal wins (`break`); an exception inside a plugin's
`next_signal` is NOT caught here and propagates. -/
def aggregate_signal (strats : List LiveStrategy) (hist : List ℚ) :
    Except PyExc (Option Side) :=
  match strats with
  | [] => Except.ok none
  | s :: rest =>
    match s.nextSignal hist with
    | Except.error e => Except.error e
    | Except.ok (some sig) => Except.ok (some sig)
    | Except.ok none => aggregate_signal rest hist

/-- The per-pair signal loop of `handle_bar` (main.py lines 466-487),
collecting the non-`None` signals handed to `handle_signal`.  An exception
from any strategy propagates out of the whole loop. -/
def signalsLoop (strats : List LiveStrategy) (bar : List (String × ℚ))
    (hist : List (String × List ℚ)) :
    List String → Except PyExc (List (String × Side))
  | [] => Except.ok []
  | p :: rest =>
    match bar.lookup p with
    | none => signalsLoop strats bar hist rest
    | some _ =>
      match aggregate_signal strats (hist_get hist p) with
      | Except.error e => Except.error e
      | Except.ok sig =>
        match signalsLoop strats bar hist rest with
        | Except.error e => Except.error e
        | Except.ok sigs =>
          Except.ok ((match sig with
                      | some s => [(p, s)]
                      | none => []) ++ sigs)

/-- `main.handle_bar` (main.py lines 452-487): update the histories of the
active pairs present in the bar, then evaluate and handle signals pair by
pair.  Returns the updated histories and the handled signals, or the first
uncaught exception. -/
def handle_bar (activePairs : List String) (strats : List LiveStrategy)
    (hist : List (String × List ℚ)) (bar : List (String × ℚ)) :
    Except PyExc (List (String × List ℚ) × List (String × Side)) :=
  let hist2 := bar.foldl
    (fun h pr => if pr.1 ∈ activePairs then hist_append h pr.1 pr.2 else h) hist
  match signalsLoop strats bar hist2 activePairs with
  | Except.error e => Except.error e
  | Except.ok sigs => Except.ok (hist2, sigs)

/-- One event reaching the main `while True` loop body: a bar from
`stream_bars`, or an exception raised while iterating the stream. -/
inductive LoopEvent
  | bar (b : List (String × ℚ))
  | exc (e : PyExc)

/-- How the main loop ends. -/
inductive LoopStatus
  | streamEnded
  | stoppedByUser
  | shutDown
deriving DecidableEq, Repr

/-- Result of the main loop: how many bars were fully handled and how the
loop ended. -/
structure MainResult where
  processed : ℕ
  status : LoopStatus
deriving DecidableEq, Repr

/-- The `while True` main event loop of main.py lines 533-557:
`KeyboardInterrupt` → break (stopped by user); `ChunkedEncodingError` →
sleep 1 and continue; any other `Exception` → log and break (shut down).
An exception raised inside `handle_bar` is dispatched by the same
`except` clauses. -/
def main_loop (activePairs : List String) (strats : List LiveStrategy)
    (hist : List (String × List ℚ)) (processed : ℕ) :
    List LoopEvent → MainResult
  | [] => { processed := processed, status := LoopStatus.streamEnded }
  | LoopEvent.exc e :: rest =>
    match e with
    | PyExc.keyboardInterrupt => { processed := processed, status := LoopStatus.stoppedByUser }
    | PyExc.chunkedEncoding => main_loop activePairs strats hist processed rest
    | PyExc.generic => { processed := processed, status := LoopStatus.shutDown }
  | LoopEvent.bar b :: rest =>
    match handle_bar activePairs strats hist b with
    | Except.ok hs => main_loop activePairs strats hs.1 (processed + 1) rest
    | Except.error PyExc.keyboardInterrupt =>
      { processed := processed, status := LoopStatus.stoppedByUser }
    | Except.error PyExc.chunkedEncoding => main_loop activePairs strats hist processed rest
    | Except.error PyExc.generic => { processed := processed, status := LoopStatus.shutDown }

/-! ### Test fixtures and invariants -/

/-- The engine-loop invariant behind claim C10: trades are counted exactly
by the EXIT events, wins and losses partition the trades, the feedback hook
fires once per trade, every ENTER except a possibly still-open final
position has produced exactly one trade, and the accumulated PnL is the sum
of the logged exit PnLs. -/
def BTInv {σ : Type} (st : BTState σ) : Prop :=
  st.trades = countExits st.log ∧
  st.wins + st.losses = st.trades ∧
  st.hookCalls = st.trades ∧
  countEnters st.log = st.trades + (if st.position.isSome then 1 else 0) ∧
  st.totalWin - st.totalLoss = sumExitPnl st.log

/-- A minimal strategy plugin that always signals BUY and keeps no state. -/
def constBuyStrategy : Strategy Unit :=
  { nextSignal := fun s _ => (some Side.buy, s),
    update := fun s _ _ => s,
    params := {} }

/-- Three rising candles: the engine enters on bar 0, exits on bar 1 (the
zero-ATR stop and target coincide with the entry close, so the bar-1 high
touches the target) and re-enters on bar 1, then exits again on bar 2. -/
def candles3 : List Candle :=
  [{ h := 2, l := 1, c := 1 }, { h := 3, l := 2, c := 2 },
   { h := 4, l := 3, c := 3 }]

/-- A live strategy plugin whose `next_signal` always raises a generic
exception. -/
def throwingStrategy : LiveStrategy :=
  { nextSignal := fun _ => Except.error PyExc.generic }

/-! ## Helper lemmas -/

/-- Round-half-to-even is within 1/2 of its argument. -/
theorem abs_halfEvenRound_sub (q : ℚ) : |(halfEvenRound q : ℚ) - q| ≤ 1 / 2 := by
  unfold halfEvenRound
  split
  · rename_i h
    have habs : |(1 : ℚ) / 2| = 1 / 2 := abs_of_pos (by norm_num)
    split
    · have : |((⌊q⌋ : ℤ) : ℚ) - q| = |q - ⌊q⌋| := abs_sub_comm _ _
      rw [this, h, habs]
    · have heq : ((⌊q⌋ + 1 : ℤ) : ℚ) - q = 1 / 2 := by push_cast; linarith
      rw [heq, habs]
  · rw [abs_sub_comm]
    exact abs_sub_round q

/-- Rounding to `d` decimal places moves a rational by at most half of the
last decimal place. -/
theorem abs_pyRoundDec_sub (q : ℚ) (d : ℕ) :
    |pyRoundDec q d - q| ≤ 1 / (2 * 10 ^ d) := by
  unfold pyRoundDec
  have h10 : (0 : ℚ) < 10 ^ d := by positivity
  have h := abs_halfEvenRound_sub (q * 10 ^ d)
  have key : (halfEvenRound (q * 10 ^ d) : ℚ) / 10 ^ d - q =
      ((halfEvenRound (q * 10 ^ d) : ℚ) - q * 10 ^ d) / 10 ^ d := by
    field_simp
    ring
  rw [key, abs_div, abs_of_pos h10,
    show (1 : ℚ) / (2 * 10 ^ d) = (1 / 2) / 10 ^ d by ring]
  exact (div_le_div_iff_of_pos_right h10).mpr h

/-- The pip size is the unit in the last rounded decimal place. -/
theorem pip_size_eq_pow (instrument : String) :
    pip_size instrument = 1 / 10 ^ pip_decimals instrument := by
  unfold pip_size pip_decimals
  split <;> norm_num

/-- The pip size is positive. -/
theorem pip_size_pos (instrument : String) : 0 < pip_size instrument := by
  unfold pip_size
  split <;> norm_num

/-- When the caller passes `stop_price == price`, the nudged-and-rounded stop
never lands back on the entry price: the nudge is a full pip while the
rounding moves the value by at most half a pip. -/
theorem rounded_stop_ne (instrument : String) (side : Side) (price : ℚ) :
    rounded_stop instrument side price price ≠ price := by
  unfold rounded_stop
  have hpip : pip_size instrument = 1 / 10 ^ pip_decimals instrument :=
    pip_size_eq_pow instrument
  have h10 : (0 : ℚ) < 10 ^ pip_decimals instrument := by positivity
  have hdist : |price - nudged_stop instrument side price price| =
      1 / 10 ^ pip_decimals instrument := by
    cases side <;>
      simp [nudged_stop, hpip, abs_of_nonneg, le_of_lt, h10, abs_of_nonpos]
  intro heq
  have hb := abs_pyRoundDec_sub (nudged_stop instrument side price price)
    (pip_decimals instrument)
  rw [heq] at hb
  rw [hdist] at hb
  have h2 : (0 : ℚ) < 2 * 10 ^ pip_decimals instrument := by positivity
  rw [div_le_div_iff h10 h2] at hb
  nlinarith

/-- Python `int` truncation agrees with the floor on nonnegative inputs. -/
theorem int_trunc_eq_floor {q : ℚ} (h : 0 ≤ q) : int_trunc q = ⌊q⌋ := by
  unfold int_trunc
  rw [if_pos h]

/-- The `if units > MAX then MAX else units` clamp is a `min`. -/
theorem clamp_eq_min (u M : ℤ) : (if u > M then M else u) = min u M := by
  split <;> omega

/-! ## Claim theorems -/

/-- Claim C6 (confirmed): when `stop_price == price`, the stop is nudged by
exactly one pip (`pip_size`: 0.01 for JPY-quoted instruments, 0.0001
otherwise) away from the entry in the direction that makes the trade valid
(below entry for BUY, above for SELL), and the sizing never divides by zero:
`place_risk_managed_order` returns a (finite, rational) result. -/
theorem C6_zero_distance_stop_nudged (instrument : String) (side : Side)
    (price equity risk_pct : ℚ) (tp_price : Option ℚ) :
    nudged_stop instrument side price price =
      (if side = Side.buy then price - pip_size instrument
       else price + pip_size instrument) ∧
    0 < pip_size instrument ∧
    pip_size "USD_JPY" = 1 / 100 ∧ pip_size "EUR_USD" = 1 / 10000 ∧
    (place_risk_managed_order instrument side price price equity risk_pct
        tp_price).isSome = true := by
  refine ⟨by simp [nudged_stop], pip_size_pos instrument,
    by with_unfolding_all rfl, by with_unfolding_all rfl, ?_⟩
  have hne : |price - rounded_stop instrument side price price| ≠ 0 := by
    rw [abs_ne_zero, sub_ne_zero]
    exact fun h => rounded_stop_ne instrument side price h.symm
  simp only [place_risk_managed_order]
  rw [if_neg hne]
  rfl

/-- Claim C5, counterexample to the claim as stated: the sizing divides by
the distance to the *rounded* stop, not to the caller's `stopPrice`.  For
USD_JPY with entry 100, stop 100.006, equity 10 and risk 1%, the code
returns 10 units while `floor(equity*riskPct / |entry - stop|)` is 16. -/
theorem C5_units_formula_counterexample :
    (place_risk_managed_order "USD_JPY" Side.buy 100 (100006 / 1000) 10
        (1 / 100) none).map OrderResult.units = some 10 ∧
    ⌊((10 : ℚ) * (1 / 100)) / |(100 : ℚ) - 100006 / 1000|⌋ = 16 ∧
    (10 : ℤ) ≠ 16 := by
  have hd : pip_decimals "USD_JPY" = 2 := by with_unfolding_all rfl
  have hn : nudged_stop "USD_JPY" Side.buy 100 (100006 / 1000) = 100006 / 1000 := by
    unfold nudged_stop
    rw [if_neg (by norm_num)]
  have hr : rounded_stop "USD_JPY" Side.buy 100 (100006 / 1000) = 10001 / 100 := by
    unfold rounded_stop
    rw [hn, hd]
    unfold pyRoundDec halfEvenRound
    rw [round_eq]
    norm_num
  refine ⟨?_, ?_, by decide⟩
  · simp only [place_risk_managed_order, hr]
    have habs : |(100 : ℚ) - 10001 / 100| = 1 / 100 := by
      rw [abs_of_nonpos (by norm_num)]
      norm_num
    rw [habs, if_neg (by norm_num : ¬ (1 / 100 : ℚ) = 0)]
    have htr : int_trunc (10 * (1 / 100) / (1 / 100) : ℚ) = 10 := by
      unfold int_trunc
      rw [if_pos (by norm_num)]
      norm_num
    rw [htr]
    norm_num [MAX_UNITS, Option.map]
    decide
  · have habs2 : |(100 : ℚ) - 100006 / 1000| = 3 / 500 := by
      rw [abs_of_nonpos (by norm_num)]
      norm_num
    rw [habs2]
    norm_num

/-- Claim C5 (corrected): with nonnegative equity and risk fraction, and the
nudged-and-rounded stop distinct from the entry price, the order size is
`floor((equity * riskPct) / |entryPrice - roundedStop|)` — the divisor being
the distance to the stop *after* the one-pip nudge and the rounding to
instrument precision — clamped above by `MAX_UNITS`, and the returned units
are negated for SELL and positive for BUY. -/
theorem C5_units_formula_amended (instrument : String) (side : Side)
    (price stop_price equity risk_pct : ℚ) (tp_price : Option ℚ)
    (h0 : 0 ≤ equity) (h1 : 0 ≤ risk_pct)
    (hnz : rounded_stop instrument side price stop_price ≠ price) :
    place_risk_managed_order instrument side price stop_price equity risk_pct
        tp_price =
      some { units := (if side = Side.sell then -1 else 1) *
               min ⌊(equity * risk_pct) /
                    |price - rounded_stop instrument side price stop_price|⌋
                   MAX_UNITS,
             stopPrice := rounded_stop instrument side price stop_price,
             tpPrice := tp_price.map
               (fun t => pyRoundDec t (pip_decimals instrument)) } := by
  have hne : |price - rounded_stop instrument side price stop_price| ≠ 0 := by
    rw [abs_ne_zero, sub_ne_zero]
    exact fun h => hnz h.symm
  have hposd : 0 < |price - rounded_stop instrument side price stop_price| :=
    lt_of_le_of_ne (abs_nonneg _) (Ne.symm hne)
  have hq : 0 ≤ (equity * risk_pct) /
      |price - rounded_stop instrument side price stop_price| :=
    div_nonneg (mul_nonneg h0 h1) (le_of_lt hposd)
  simp only [place_risk_managed_order]
  rw [if_neg hne, int_trunc_eq_floor hq, clamp_eq_min]
  cases side <;> simp [neg_one_mul]

/-- Claim C5, witness for the amended theorem on EUR_USD with entry 1.2,
stop 1.1, equity 1000, risk 1%. -/
theorem C5_units_formula_witness :
    place_risk_managed_order "EUR_USD" Side.buy (6 / 5) (11 / 10) 1000
        (1 / 100) none =
      some { units := (if Side.buy = Side.sell then -1 else 1) *
               min ⌊((1000 : ℚ) * (1 / 100)) /
                    |(6 / 5 : ℚ) - rounded_stop "EUR_USD" Side.buy (6 / 5) (11 / 10)|⌋
                   MAX_UNITS,
             stopPrice := rounded_stop "EUR_USD" Side.buy (6 / 5) (11 / 10),
             tpPrice := none } :=
  C5_units_formula_amended "EUR_USD" Side.buy (6 / 5) (11 / 10) 1000 (1 / 100)
    none (by norm_num) (by norm_num)
    (by
      have hd : pip_decimals "EUR_USD" = 4 := by with_unfolding_all rfl
      have hn : nudged_stop "EUR_USD" Side.buy (6 / 5) (11 / 10) = 11 / 10 := by
        unfold nudged_stop
        rw [if_neg (by norm_num)]
      unfold rounded_stop
      rw [hn, hd]
      unfold pyRoundDec halfEvenRound
      rw [round_eq]
      norm_num)

/-- Claim C4, counterexample to the claim as stated: for the non-JPY
instrument EUR_USD the risk sizer rounds the stop to 4 decimal places, not
5: a stop of 1.23456 is sent as 1.2346, while rounding to 5 places would
leave it at 1.23456. -/
theorem C4_rounding_counterexample :
    (place_risk_managed_order "EUR_USD" Side.buy 2 (123456 / 100000) 1000
        (1 / 100) (some (123456 / 100000))).map OrderResult.stopPrice =
      some (6173 / 5000) ∧
    pyRoundDec (123456 / 100000) 5 = 123456 / 100000 ∧
    (6173 / 5000 : ℚ) ≠ 123456 / 100000 := by
  have hd : pip_decimals "EUR_USD" = 4 := by with_unfolding_all rfl
  have hn : nudged_stop "EUR_USD" Side.buy 2 (123456 / 100000) = 123456 / 100000 := by
    unfold nudged_stop
    rw [if_neg (by norm_num)]
  have hr : rounded_stop "EUR_USD" Side.buy 2 (123456 / 100000) = 6173 / 5000 := by
    unfold rounded_stop
    rw [hn, hd]
    unfold pyRoundDec halfEvenRound
    rw [round_eq]
    norm_num
  refine ⟨?_, ?_, by norm_num⟩
  · simp only [place_risk_managed_order, hr]
    have habs : |(2 : ℚ) - 6173 / 5000| = 3827 / 5000 := by
      rw [abs_of_pos (by norm_num)]
      norm_num
    rw [habs, if_neg (by norm_num : ¬ (3827 / 5000 : ℚ) = 0)]
    norm_num [Option.map]
  · unfold pyRoundDec halfEvenRound
    rw [round_eq]
    norm_num

/-- Claim C4 (corrected): the stop and take-profit prices sent by the risk
sizer are rounded to exactly 2 decimal places for JPY-quoted instruments and
exactly 4 (not 5) otherwise: each returned price is an integer multiple of
`10^-d` within half a unit of the last place of the (nudged) input, with
`d = 2` for JPY and `d = 4` otherwise.  The live helper `main.round_price`
instead formats to 5 places for non-JPY pairs such as EUR_USD, so the two
paths do not round identically. -/
theorem C4_rounding_amended (instrument : String) (side : Side)
    (price stop_price equity risk_pct : ℚ) (tp_price : Option ℚ)
    (r : OrderResult)
    (h : place_risk_managed_order instrument side price stop_price equity
        risk_pct tp_price = some r) :
    (∃ k : ℤ, r.stopPrice =
        (k : ℚ) / 10 ^ (if instrument.endsWith "JPY" then 2 else 4)) ∧
    |r.stopPrice - nudged_stop instrument side price stop_price| ≤
      1 / (2 * 10 ^ (if instrument.endsWith "JPY" then 2 else 4)) ∧
    (∀ t, tp_price = some t → r.tpPrice =
        some (pyRoundDec t (if instrument.endsWith "JPY" then 2 else 4))) ∧
    round_price_prec "EUR_USD" = 5 ∧ pip_decimals "EUR_USD" = 4 := by
  have hd : pip_decimals instrument =
      (if instrument.endsWith "JPY" then 2 else 4) := rfl
  have hstop : r.stopPrice = rounded_stop instrument side price stop_price ∧
      r.tpPrice = tp_price.map (fun t => pyRoundDec t (pip_decimals instrument)) := by
    simp only [place_risk_managed_order] at h
    by_cases hz : |price - rounded_stop instrument side price stop_price| = 0
    · rw [if_pos hz] at h
      exact absurd h (by simp)
    · rw [if_neg hz] at h
      have := (Option.some.injEq _ _).mp h
      constructor
      · rw [← this]
      · rw [← this]
  refine ⟨?_, ?_, ?_, by with_unfolding_all rfl, by with_unfolding_all rfl⟩
  · rw [hstop.1, ← hd]
    exact ⟨halfEvenRound (nudged_stop instrument side price stop_price *
      10 ^ pip_decimals instrument), rfl⟩
  · rw [hstop.1, ← hd]
    exact abs_pyRoundDec_sub _ _
  · intro t ht
    rw [hstop.2, ht, ← hd]
    rfl

/-- Claim C4, witness for the amended theorem at a concrete EUR_USD order. -/
theorem C4_rounding_witness :
    (∃ k : ℤ, ((6173 : ℚ) / 5000) =
        (k : ℚ) / 10 ^ (if ("EUR_USD" : String).endsWith "JPY" then 2 else 4)) ∧
    |((6173 : ℚ) / 5000) - nudged_stop "EUR_USD" Side.buy 2 (123456 / 100000)| ≤
      1 / (2 * 10 ^ (if ("EUR_USD" : String).endsWith "JPY" then 2 else 4)) ∧
    (∀ t, (some ((123456 : ℚ) / 100000) : Option ℚ) = some t →
      (some ((6173 : ℚ) / 5000) : Option ℚ) =
        some (pyRoundDec t (if ("EUR_USD" : String).endsWith "JPY" then 2 else 4))) ∧
    round_price_prec "EUR_USD" = 5 ∧ pip_decimals "EUR_USD" = 4 := by
  have h : place_risk_managed_order "EUR_USD" Side.buy 2 (123456 / 100000) 1000
      (1 / 100) (some (123456 / 100000)) =
      some { units := 13, stopPrice := 6173 / 5000,
             tpPrice := some (6173 / 5000) } := by
    have hd : pip_decimals "EUR_USD" = 4 := by with_unfolding_all rfl
    have hn : nudged_stop "EUR_USD" Side.buy 2 (123456 / 100000) = 123456 / 100000 := by
      unfold nudged_stop
      rw [if_neg (by norm_num)]
    have hr : rounded_stop "EUR_USD" Side.buy 2 (123456 / 100000) = 6173 / 5000 := by
      unfold rounded_stop
      rw [hn, hd]
      unfold pyRoundDec halfEvenRound
      rw [round_eq]
      norm_num
    have htp : pyRoundDec (123456 / 100000) (pip_decimals "EUR_USD") = 6173 / 5000 := by
      rw [hd]
      unfold pyRoundDec halfEvenRound
      rw [round_eq]
      norm_num
    simp only [place_risk_managed_order, hr, Option.map]
    have habs : |(2 : ℚ) - 6173 / 5000| = 3827 / 5000 := by
      rw [abs_of_pos (by norm_num)]
      norm_num
    rw [habs, if_neg (by norm_num : ¬ (3827 / 5000 : ℚ) = 0)]
    have htr : int_trunc (1000 * (1 / 100) / (3827 / 5000) : ℚ) = 13 := by
      unfold int_trunc
      rw [if_pos (by norm_num)]
      norm_num
    rw [htr, htp]
    norm_num [MAX_UNITS]
    decide
  exact C4_rounding_amended "EUR_USD" Side.buy 2 (123456 / 100000) 1000 (1 / 100)
    (some (123456 / 100000)) _ h

/-- Claim C7, counterexample to the claim as stated: `update_trade_result`
adds the raw PnL, so a losing trade strictly decreases `cumulativePnl` —
it is not monotonically non-decreasing under updates. -/
theorem C7_monotone_counterexample :
    (update_trade_result { name := "arm", pullCount := 3, cumulativePnl := 5 }
        false (-2)).cumulativePnl <
      ({ name := "arm", pullCount := 3, cumulativePnl := 5 } : StrategyArm).cumulativePnl := by
  norm_num [update_trade_result]

/-- Claim C7 (corrected): over any sequence of `update_trade_result` calls,
`pullCount` is monotonically non-decreasing (each update adds exactly 1),
while `cumulativePnl` is non-decreasing only when every reported PnL is
nonnegative — a losing trade decreases it. -/
theorem C7_pullcount_monotone_amended (a : StrategyArm)
    (updates : List (Bool × ℚ)) :
    a.pullCount ≤
      (updates.foldl (fun x u => update_trade_result x u.1 u.2) a).pullCount ∧
    ((∀ u ∈ updates, 0 ≤ u.2) →
      a.cumulativePnl ≤
        (updates.foldl (fun x u => update_trade_result x u.1 u.2) a).cumulativePnl) := by
  induction updates generalizing a with
  | nil => exact ⟨le_refl _, fun _ => le_refl _⟩
  | cons u rest ih =>
    simp only [List.foldl_cons]
    constructor
    · refine le_trans ?_ (ih (update_trade_result a u.1 u.2)).1
      simp [update_trade_result]
    · intro hpos
      refine le_trans ?_ ((ih (update_trade_result a u.1 u.2)).2
        (fun v hv => hpos v (List.mem_cons_of_mem _ hv)))
      have h0 : 0 ≤ u.2 := hpos u (List.mem_cons_self _ _)
      simp only [update_trade_result]
      linarith

/-- Claim C7, witness for the amended theorem: two nonnegative-PnL updates
starting from a fresh arm. -/
theorem C7_pullcount_monotone_witness :
    ({ name := "a", pullCount := 0, cumulativePnl := 0 } : StrategyArm).pullCount ≤
      (([(true, (1 : ℚ)), (false, 2)]).foldl
        (fun x u => update_trade_result x u.1 u.2)
        { name := "a", pullCount := 0, cumulativePnl := 0 }).pullCount ∧
    ({ name := "a", pullCount := 0, cumulativePnl := 0 } : StrategyArm).cumulativePnl ≤
      (([(true, (1 : ℚ)), (false, 2)]).foldl
        (fun x u => update_trade_result x u.1 u.2)
        { name := "a", pullCount := 0, cumulativePnl := 0 }).cumulativePnl :=
  ⟨(C7_pullcount_monotone_amended _ _).1,
   (C7_pullcount_monotone_amended _ _).2 (by
      intro u hu
      rcases List.mem_cons.mp hu with h | h
      · rw [h]
        norm_num
      · rcases List.mem_cons.mp h with h2 | h2
        · rw [h2]
          norm_num
        · cases h2)⟩

/-- If some arm in the list has `pull_count == 0`, the UCB selection loop
returns an arm with `pull_count == 0` (forced exploration), whatever the
accumulator holds. -/
theorem selectGo_zero (tp : ℕ) (l : List StrategyArm) :
    ∀ best : Option (StrategyArm × ℝ), (∃ x ∈ l, x.pullCount = 0) →
    ∃ a, selectGo tp l best = some a ∧ a ∈ l ∧ a.pullCount = 0 := by
  induction l with
  | nil =>
    intro best h
    rcases h with ⟨x, hx, _⟩
    cases hx
  | cons a rest ih =>
    intro best h
    by_cases ha : a.pullCount = 0
    · refine ⟨a, ?_, List.mem_cons_self a rest, ha⟩
      cases best <;> simp [selectGo, ha]
    · rcases h with ⟨x, hx, hx0⟩
      rcases List.mem_cons.mp hx with rfl | hxr
      · exact absurd hx0 ha
      · have hrec := fun nb => ih nb ⟨x, hxr, hx0⟩
        cases best with
        | none =>
          simp only [selectGo, if_neg ha]
          obtain ⟨a2, h1, h2, h3⟩ := hrec (some (a, ucbScore tp a))
          exact ⟨a2, h1, List.mem_cons_of_mem _ h2, h3⟩
        | some bb =>
          simp only [selectGo, if_neg ha]
          by_cases hbb : bb.2 < ucbScore tp a
          · rw [if_pos hbb]
            obtain ⟨a2, h1, h2, h3⟩ := hrec (some (a, ucbScore tp a))
            exact ⟨a2, h1, List.mem_cons_of_mem _ h2, h3⟩
          · rw [if_neg hbb]
            obtain ⟨a2, h1, h2, h3⟩ := hrec (some bb)
            exact ⟨a2, h1, List.mem_cons_of_mem _ h2, h3⟩

/-- If every remaining arm has been pulled, the UCB selection loop returns
an arm whose score is at least the accumulator's score and at least every
remaining arm's score. -/
theorem selectGo_max (tp : ℕ) (l : List StrategyArm) :
    ∀ b : StrategyArm, (∀ x ∈ l, x.pullCount ≠ 0) →
    ∃ a, selectGo tp l (some (b, ucbScore tp b)) = some a ∧
      (a = b ∨ a ∈ l) ∧ ucbScore tp b ≤ ucbScore tp a ∧
      ∀ x ∈ l, ucbScore tp x ≤ ucbScore tp a := by
  induction l with
  | nil =>
    intro b _
    exact ⟨b, rfl, Or.inl rfl, le_refl _, by simp⟩
  | cons a rest ih =>
    intro b hnz
    have ha : a.pullCount ≠ 0 := hnz a (List.mem_cons_self _ _)
    have hrest : ∀ x ∈ rest, x.pullCount ≠ 0 :=
      fun x hx => hnz x (List.mem_cons_of_mem _ hx)
    simp only [selectGo, if_neg ha]
    by_cases hlt : ucbScore tp b < ucbScore tp a
    · rw [if_pos hlt]
      obtain ⟨a2, h1, h2, h3, h4⟩ := ih a hrest
      refine ⟨a2, h1, ?_, le_trans (le_of_lt hlt) h3, ?_⟩
      · rcases h2 with rfl | h2r
        · exact Or.inr (List.mem_cons_self _ _)
        · exact Or.inr (List.mem_cons_of_mem _ h2r)
      · intro x hx
        rcases List.mem_cons.mp hx with rfl | hxr
        · exact h3
        · exact h4 x hxr
    · rw [if_neg hlt]
      obtain ⟨a2, h1, h2, h3, h4⟩ := ih b hrest
      refine ⟨a2, h1, ?_, h3, ?_⟩
      · rcases h2 with rfl | h2r
        · exact Or.inl rfl
        · exact Or.inr (List.mem_cons_of_mem _ h2r)
      · intro x hx
        rcases List.mem_cons.mp hx with rfl | hxr
        · exact le_trans (not_lt.mp hlt) h3
        · exact h4 x hxr

/-- Claim C8 (confirmed): on a non-empty arm list with `totalPulls ≥ 1`,
`select_strategy_ucb` returns an arm with `pullCount == 0` whenever one
exists, and otherwise an arm maximizing
`cumulativePnl/pullCount + sqrt(2*ln(totalPulls)/pullCount)` over all
arms. -/
theorem C8_ucb_selection (l : List StrategyArm) (totalPulls : ℕ)
    (hne : l ≠ []) (htp : 1 ≤ totalPulls) :
    ∃ a, select_strategy_ucb l totalPulls = some a ∧ a ∈ l ∧
      ((∃ b ∈ l, b.pullCount = 0) → a.pullCount = 0) ∧
      ((∀ b ∈ l, b.pullCount ≠ 0) →
        ∀ b ∈ l, ucbScore totalPulls b ≤ ucbScore totalPulls a) := by
  by_cases hz : ∃ x ∈ l, x.pullCount = 0
  · obtain ⟨a, h1, h2, h3⟩ := selectGo_zero totalPulls l none hz
    exact ⟨a, h1, h2, fun _ => h3, fun hall => absurd h3 (hall a h2)⟩
  · push_neg at hz
    cases l with
    | nil => exact absurd rfl hne
    | cons a rest =>
      have ha : a.pullCount ≠ 0 := hz a (List.mem_cons_self _ _)
      have hrest : ∀ x ∈ rest, x.pullCount ≠ 0 :=
        fun x hx => hz x (List.mem_cons_of_mem _ hx)
      obtain ⟨a2, h1, h2, h3, h4⟩ := selectGo_max totalPulls rest a hrest
      refine ⟨a2, ?_, ?_, ?_, ?_⟩
      · simp only [select_strategy_ucb, selectGo, if_neg ha]
        exact h1
      · rcases h2 with rfl | h2r
        · exact List.mem_cons_self _ _
        · exact List.mem_cons_of_mem _ h2r
      · intro hex
        obtain ⟨b, hb, hb0⟩ := hex
        exact absurd hb0 (hz b hb)
      · intro _ x hx
        rcases List.mem_cons.mp hx with rfl | hxr
        · exact h3
        · exact h4 x hxr

/-- Claim C8, witness: a singleton fresh arm is selected immediately. -/
theorem C8_ucb_selection_witness :
    ∃ a, select_strategy_ucb
        [{ name := "a", pullCount := 0, cumulativePnl := 0 }] 1 = some a ∧
      a ∈ [({ name := "a", pullCount := 0, cumulativePnl := 0 } : StrategyArm)] ∧
      ((∃ b ∈ [({ name := "a", pullCount := 0, cumulativePnl := 0 } : StrategyArm)],
          b.pullCount = 0) → a.pullCount = 0) ∧
      ((∀ b ∈ [({ name := "a", pullCount := 0, cumulativePnl := 0 } : StrategyArm)],
          b.pullCount ≠ 0) →
        ∀ b ∈ [({ name := "a", pullCount := 0, cumulativePnl := 0 } : StrategyArm)],
          ucbScore 1 b ≤ ucbScore 1 a) :=
  C8_ucb_selection _ _ (by simp) (le_refl 1)

/-- The retry trace has one entry per stream event. -/
theorem streamTrace_length (r : ℕ) (es : List StreamEvent) :
    (streamTrace r es).length = es.length := by
  induction es generalizing r with
  | nil => rfl
  | cons e rest ih => simp [streamTrace, ih]

/-- The retry trace of a concatenation splits at the carried retry counter. -/
theorem streamTrace_append (r : ℕ) (xs ys : List StreamEvent) :
    streamTrace r (xs ++ ys) =
      streamTrace r xs ++ streamTrace (finalRetry r xs) ys := by
  induction xs generalizing r with
  | nil => rfl
  | cons e rest ih => simp [streamTrace, finalRetry, ih]

/-- Claim C9 (confirmed): at any point of the stream, an underlying error
increments the retry counter and sleeps exactly `min(2^retryCount, 60)`
seconds before re-subscribing, and the retry counter is 0 immediately after
any successfully produced bar — in particular after the first bar following
a reconnect. -/
theorem C9_retry_backoff (r0 : ℕ) (pre post : List StreamEvent) :
    (streamTrace r0 (pre ++ StreamEvent.err :: post))[pre.length]? =
      some (finalRetry r0 pre + 1,
        some (min (2 ^ (finalRetry r0 pre + 1)) 60), none) ∧
    ∀ b, (streamTrace r0 (pre ++ StreamEvent.bar b :: post))[pre.length]? =
      some (0, none, some b) := by
  constructor
  · rw [streamTrace_append,
      List.getElem?_append_right (le_of_eq (streamTrace_length r0 pre))]
    rw [streamTrace_length, Nat.sub_self]
    simp [streamTrace, streamStep]
  · intro b
    rw [streamTrace_append,
      List.getElem?_append_right (le_of_eq (streamTrace_length r0 pre))]
    rw [streamTrace_length, Nat.sub_self]
    simp [streamTrace, streamStep]

/-- Appending an EXIT event increments the exit count. -/
theorem countExits_append_exit (log : List BTEvent) (i : ℕ) (r : ExitReason)
    (p pnl : ℚ) :
    countExits (log ++ [BTEvent.exitTrade i r p pnl]) = countExits log + 1 := by
  simp [countExits]

/-- Appending an ENTER event leaves the exit count unchanged. -/
theorem countExits_append_enter (log : List BTEvent) (i : ℕ) (s : Side)
    (e sl tp : ℚ) :
    countExits (log ++ [BTEvent.enter i s e sl tp]) = countExits log := by
  simp [countExits]

/-- Appending an EXIT event leaves the enter count unchanged. -/
theorem countEnters_append_exit (log : List BTEvent) (i : ℕ) (r : ExitReason)
    (p pnl : ℚ) :
    countEnters (log ++ [BTEvent.exitTrade i r p pnl]) = countEnters log := by
  simp [countEnters]

/-- Appending an ENTER event increments the enter count. -/
theorem countEnters_append_enter (log : List BTEvent) (i : ℕ) (s : Side)
    (e sl tp : ℚ) :
    countEnters (log ++ [BTEvent.enter i s e sl tp]) = countEnters log + 1 := by
  simp [countEnters]

/-- Appending an EXIT event adds its PnL to the exit-PnL sum. -/
theorem sumExitPnl_append_exit (log : List BTEvent) (i : ℕ) (r : ExitReason)
    (p pnl : ℚ) :
    sumExitPnl (log ++ [BTEvent.exitTrade i r p pnl]) = sumExitPnl log + pnl := by
  simp [sumExitPnl]

/-- Appending an ENTER event leaves the exit-PnL sum unchanged. -/
theorem sumExitPnl_append_enter (log : List BTEvent) (i : ℕ) (s : Side)
    (e sl tp : ℚ) :
    sumExitPnl (log ++ [BTEvent.enter i s e sl tp]) = sumExitPnl log := by
  simp [sumExitPnl]

/-- The exit phase preserves the engine invariant. -/
theorem btInv_exitPhase {σ : Type} (strat : Strategy σ) (idx : ℕ) (c : Candle)
    (st : BTState σ) (h : BTInv st) : BTInv (exitPhase strat idx c st) := by
  unfold exitPhase
  split
  · exact h
  rename_i pos heq
  split
  · exact h
  rename_i rp heq2
  obtain ⟨hT, hWL, hH, hE, hP⟩ := h
  refine ⟨?_, ?_, ?_, ?_, ?_⟩
  · rw [countExits_append_exit, hT]
  · by_cases hpnl : 0 < exitPnl pos rp.2 <;> simp [hpnl] <;> omega
  · rw [hH]
  · rw [countEnters_append_exit, hE, heq]
    simp
  · rw [sumExitPnl_append_exit, ← hP]
    by_cases hpnl : 0 < exitPnl pos rp.2
    · simp only [if_pos hpnl]
      ring
    · simp only [if_neg hpnl]
      rw [abs_of_nonpos (not_lt.mp hpnl)]
      ring

/-- The entry phase preserves the engine invariant. -/
theorem btInv_entryPhase {σ : Type} (strat : Strategy σ) (n idx : ℕ)
    (c : Candle) (st : BTState σ) (h : BTInv st) :
    BTInv (entryPhase strat n idx c st) := by
  unfold entryPhase
  split
  · rename_i hcond
    split
    · rename_i side s2 heq
      obtain ⟨hT, hWL, hH, hE, hP⟩ := h
      refine ⟨?_, hWL, hH, ?_, ?_⟩
      · rw [countExits_append_enter, hT]
      · rw [countEnters_append_enter, hE, hcond.1]
        simp
      · rw [sumExitPnl_append_enter, hP]
    · exact h
  · exact h

/-- One full engine step preserves the invariant. -/
theorem btInv_btStep {σ : Type} (strat : Strategy σ) (warmup n idx : ℕ)
    (c : Candle) (st : BTState σ) (h : BTInv st) :
    BTInv (btStep strat warmup n idx c st) := by
  unfold btStep
  exact btInv_entryPhase strat n idx c _
    (btInv_exitPhase strat idx c _ h)

/-- The invariant is preserved by folding engine steps over any enumerated
candle list. -/
theorem btInv_foldl {σ : Type} (strat : Strategy σ) (warmup n : ℕ)
    (l : List (ℕ × Candle)) :
    ∀ st : BTState σ, BTInv st →
      BTInv (l.foldl (fun s p => btStep strat warmup n p.1 p.2 s) st) := by
  induction l with
  | nil => exact fun _ h => h
  | cons p rest ih =>
    exact fun st h => ih _ (btInv_btStep strat warmup n p.1 p.2 st h)

/-- Claim C10 (confirmed): only closed positions produce trade records and
statistics.  The reported trade count equals the number of logged exits,
wins and losses partition it, the feedback hook fires exactly once per
counted trade, the number of entries exceeds the number of counted trades
by exactly one iff a position is still open after the final candle (so the
open position contributes no trade, no win/loss and no hook call), and the
reported total PnL is the sum of the closed trades' PnLs only. -/
theorem C10_open_position_excluded {σ : Type} (strat : Strategy σ) (s0 : σ)
    (candles : List Candle) (warmup : ℕ) :
    (run_backtest strat s0 candles warmup).trades =
      countExits (run_backtest_state strat s0 candles warmup).log ∧
    (run_backtest_state strat s0 candles warmup).wins +
      (run_backtest_state strat s0 candles warmup).losses =
      (run_backtest_state strat s0 candles warmup).trades ∧
    (run_backtest_state strat s0 candles warmup).hookCalls =
      (run_backtest_state strat s0 candles warmup).trades ∧
    countEnters (run_backtest_state strat s0 candles warmup).log =
      (run_backtest_state strat s0 candles warmup).trades +
      (if (run_backtest_state strat s0 candles warmup).position.isSome
       then 1 else 0) ∧
    (run_backtest strat s0 candles warmup).total_pnl =
      sumExitPnl (run_backtest_state strat s0 candles warmup).log := by
  have h0 : BTInv (initBTState s0 : BTState σ) := by
    refine ⟨rfl, rfl, rfl, ?_, ?_⟩ <;>
      simp [initBTState, countEnters, sumExitPnl]
  have h := btInv_foldl strat warmup candles.length candles.enum
    (initBTState s0) h0
  obtain ⟨hT, hWL, hH, hE, hP⟩ := h
  exact ⟨hT, hWL, hH, hE, hP⟩

/-- Claim C1, counterexample to the claim as stated, at the spec's own
example (LONG entry=1.1000, SL=1.0950, TP=1.1100, bar high=1.1150,
low=1.0900): both the SL and TP conditions hold, but the engine emits
reason TP with the takeProfit price — not SL with the stopLoss price. -/
theorem C1_sl_priority_counterexample :
    hit_sl Side.buy (1095 / 1000)
      { h := 1115 / 1000, l := 109 / 100, c := 111 / 100 } ∧
    hit_tp Side.buy (111 / 100)
      { h := 1115 / 1000, l := 109 / 100, c := 111 / 100 } ∧
    exitDecision 0 1
        { side := Side.buy, entryPrice := 11 / 10, sl := 1095 / 1000,
          tp := 111 / 100, entryIdx := 0 }
        { h := 1115 / 1000, l := 109 / 100, c := 111 / 100 } =
      some (ExitReason.tp, 111 / 100) ∧
    ¬ exitDecision 0 1
        { side := Side.buy, entryPrice := 11 / 10, sl := 1095 / 1000,
          tp := 111 / 100, entryIdx := 0 }
        { h := 1115 / 1000, l := 109 / 100, c := 111 / 100 } =
      some (ExitReason.sl, 1095 / 1000) := by
  have hsl : hit_sl Side.buy (1095 / 1000)
      { h := 1115 / 1000, l := 109 / 100, c := 111 / 100 } :=
    Or.inl ⟨rfl, by norm_num⟩
  have htp : hit_tp Side.buy (111 / 100)
      { h := 1115 / 1000, l := 109 / 100, c := 111 / 100 } :=
    Or.inl ⟨rfl, by norm_num⟩
  have heval : exitDecision 0 1
      { side := Side.buy, entryPrice := 11 / 10, sl := 1095 / 1000,
        tp := 111 / 100, entryIdx := 0 }
      { h := 1115 / 1000, l := 109 / 100, c := 111 / 100 } =
      some (ExitReason.tp, 111 / 100) := by
    unfold exitDecision
    rw [if_pos (Or.inl hsl), if_pos htp]
  refine ⟨hsl, htp, heval, ?_⟩
  rw [heval]
  simp

/-- Claim C1 (corrected): if both the stop-loss and the take-profit
conditions are true within the same bar, the emitted exit reason is TP and
the exit price is the takeProfit level — TP, not SL, takes priority
(`exit_price = tp if hit_tp else ...`). -/
theorem C1_tp_priority_amended (maxDur idx : ℕ) (pos : Position) (c : Candle)
    (hsl : hit_sl pos.side pos.sl c) (htp : hit_tp pos.side pos.tp c) :
    exitDecision maxDur idx pos c = some (ExitReason.tp, pos.tp) := by
  unfold exitDecision
  rw [if_pos (Or.inl hsl), if_pos htp]

/-- Claim C1, witness for the amended theorem at the spec's gap example. -/
theorem C1_tp_priority_witness :
    exitDecision 0 1
        { side := Side.buy, entryPrice := 11 / 10, sl := 1095 / 1000,
          tp := 111 / 100, entryIdx := 0 }
        { h := 1115 / 1000, l := 109 / 100, c := 111 / 100 } =
      some (ExitReason.tp, 111 / 100) :=
  C1_tp_priority_amended 0 1 _ _ (Or.inl ⟨rfl, by norm_num⟩)
    (Or.inl ⟨rfl, by norm_num⟩)

/-- Claim C3, counterexample to the claim as stated: with one active pair
and a strategy whose signal computation always raises, the main loop does
not treat the signal as NONE and continue — it aborts on the first bar
(zero bars fully handled, status "shut down"), leaving the second bar
unprocessed. -/
theorem C3_strategy_exception_counterexample :
    main_loop ["EUR_USD"] [throwingStrategy] [("EUR_USD", [])] 0
        [LoopEvent.bar [("EUR_USD", 1)], LoopEvent.bar [("EUR_USD", 1)]] =
      { processed := 0, status := LoopStatus.shutDown } := by
  rfl

/-- Claim C3 (corrected): an exception raised by a strategy's signal
computation is not caught inside `handle_bar`; it propagates to the main
event loop, whose generic `except Exception` clause logs and breaks — the
loop shuts down at that bar and the remaining bars are never processed. -/
theorem C3_exception_aborts_loop_amended (activePairs : List String)
    (strats : List LiveStrategy) (hist : List (String × List ℚ))
    (processed : ℕ) (b : List (String × ℚ)) (rest : List LoopEvent)
    (h : handle_bar activePairs strats hist b = Except.error PyExc.generic) :
    main_loop activePairs strats hist processed (LoopEvent.bar b :: rest) =
      { processed := processed, status := LoopStatus.shutDown } := by
  unfold main_loop
  rw [h]

/-- Claim C3, witness for the amended theorem: the throwing strategy makes
`handle_bar` raise, and the loop shuts down with no bar handled. -/
theorem C3_exception_aborts_loop_witness :
    main_loop ["EUR_USD"] [throwingStrategy] [("EUR_USD", [])] 0
        (LoopEvent.bar [("EUR_USD", 1)] :: []) =
      { processed := 0, status := LoopStatus.shutDown } :=
  C3_exception_aborts_loop_amended ["EUR_USD"] [throwingStrategy]
    [("EUR_USD", [])] 0 [("EUR_USD", 1)] [] (by rfl)

/-- When a position is open and the exit decision fires, the exit phase
clears the position and counts one trade. -/
theorem exitPhase_fires {σ : Type} (strat : Strategy σ) (idx : ℕ) (c : Candle)
    (st : BTState σ) (pos : Position) (rp : ExitReason × ℚ)
    (hpos : st.position = some pos)
    (hexit : exitDecision strat.params.maxDuration idx pos c = some rp) :
    (exitPhase strat idx c st).position = none ∧
    (exitPhase strat idx c st).trades = st.trades + 1 := by
  unfold exitPhase
  simp only [hpos, hexit]
  exact ⟨trivial, trivial⟩

/-- When the position slot is free, the bar is not the final one and the
strategy signals, the entry phase opens a position entered at this bar. -/
theorem entryPhase_enters {σ : Type} (strat : Strategy σ) (n idx : ℕ)
    (c : Candle) (st : BTState σ) (side : Side) (s2 : σ)
    (hpos : st.position = none) (hidx : idx < n - 1)
    (hsig : strat.nextSignal st.stratState st.bars = (some side, s2)) :
    (entryPhase strat n idx c st).position =
      some ⟨side, c.c, (sl_tp_levels st.bars side strat.params).1,
        (sl_tp_levels st.bars side strat.params).2, idx⟩ ∧
    (entryPhase strat n idx c st).trades = st.trades := by
  unfold entryPhase
  rw [if_pos (⟨hpos, hidx⟩ : st.position = none ∧ idx < n - 1)]
  simp only [hsig]
  exact ⟨trivial, trivial⟩

/-- Claim C2, counterexample to the claim as stated: running the engine on
three rising candles with an always-BUY strategy, bar 1 both exits the open
position (EXIT at idx 1) and opens a new one (ENTER at idx 1) — the entry
evaluation is *not* suppressed on the bar that just exited. -/
theorem C2_same_bar_reentry_counterexample :
    (run_backtest_state constBuyStrategy () candles3 0).log =
      [BTEvent.enter 0 Side.buy 1 1 1,
       BTEvent.exitTrade 1 ExitReason.tp 1 0,
       BTEvent.enter 1 Side.buy 2 2 2,
       BTEvent.exitTrade 2 ExitReason.tp 2 0] := by
  norm_num [run_backtest_state, candles3, List.enum, List.enumFrom,
    initBTState, btStep, exitPhase, entryPhase, exitDecision, hit_sl, hit_tp,
    exitPnl, constBuyStrategy, dequeAppend, sl_tp_levels, compute_atr,
    trueRanges, List.getLast?]

/-- Claim C2 (corrected): when a position exits on bar `idx` and `idx` is
not the final candle, a new entry IS evaluated on that same bar: if the
strategy signals, the step both counts the exit trade and opens a new
position entered at the same `idx`.  Two state transitions can therefore
occur on one bar; only on the final candle is no entry evaluated. -/
theorem C2_same_bar_reentry_amended {σ : Type} (strat : Strategy σ)
    (warmup n idx : ℕ) (c : Candle) (st : BTState σ) (pos : Position)
    (rp : ExitReason × ℚ) (side : Side) (s2 : σ)
    (hpos : st.position = some pos)
    (hexit : exitDecision strat.params.maxDuration idx pos c = some rp)
    (hidx : idx < n - 1)
    (hsig : strat.nextSignal
        (exitPhase strat idx c
          { st with bars := dequeAppend (warmup + 5) st.bars c }).stratState
        (exitPhase strat idx c
          { st with bars := dequeAppend (warmup + 5) st.bars c }).bars =
      (some side, s2)) :
    (btStep strat warmup n idx c st).trades = st.trades + 1 ∧
    ∃ p, (btStep strat warmup n idx c st).position = some p ∧
      p.entryIdx = idx ∧ p.side = side := by
  unfold btStep
  obtain ⟨h2pos, h2trades⟩ := exitPhase_fires strat idx c
    { st with bars := dequeAppend (warmup + 5) st.bars c } pos rp hpos hexit
  obtain ⟨h3pos, h3trades⟩ := entryPhase_enters strat n idx c
    (exitPhase strat idx c
      { st with bars := dequeAppend (warmup + 5) st.bars c })
    side s2 h2pos hidx hsig
  refine ⟨by rw [h3trades, h2trades], ⟨_, h3pos, rfl, rfl⟩⟩

/-- Claim C2, witness for the amended theorem: the state reached after bar 0
of the three-candle run, stepped through bar 1. -/
theorem C2_same_bar_reentry_witness :
    (btStep constBuyStrategy 0 3 1 { h := 3, l := 2, c := 2 }
        { wins := 0, losses := 0, trades := 0, totalWin := 0, totalLoss := 0,
          bars := [{ h := 2, l := 1, c := 1 }],
          position := some ⟨Side.buy, 1, 1, 1, 0⟩, stratState := (),
          hookCalls := 0,
          log := [BTEvent.enter 0 Side.buy 1 1 1] }).trades =
      ({ wins := 0, losses := 0, trades := 0, totalWin := 0, totalLoss := 0,
          bars := [{ h := 2, l := 1, c := 1 }],
          position := some ⟨Side.buy, 1, 1, 1, 0⟩, stratState := (),
          hookCalls := 0,
          log := [BTEvent.enter 0 Side.buy 1 1 1] } : BTState Unit).trades + 1 ∧
    ∃ p, (btStep constBuyStrategy 0 3 1 { h := 3, l := 2, c := 2 }
        { wins := 0, losses := 0, trades := 0, totalWin := 0, totalLoss := 0,
          bars := [{ h := 2, l := 1, c := 1 }],
          position := some ⟨Side.buy, 1, 1, 1, 0⟩, stratState := (),
          hookCalls := 0,
          log := [BTEvent.enter 0 Side.buy 1 1 1] }).position = some p ∧
      p.entryIdx = 1 ∧ p.side = Side.buy :=
  C2_same_bar_reentry_amended constBuyStrategy 0 3 1 { h := 3, l := 2, c := 2 }
    { wins := 0, losses := 0, trades := 0, totalWin := 0, totalLoss := 0,
      bars := [{ h := 2, l := 1, c := 1 }],
      position := some ⟨Side.buy, 1, 1, 1, 0⟩, stratState := (),
      hookCalls := 0, log := [BTEvent.enter 0 Side.buy 1 1 1] }
    ⟨Side.buy, 1, 1, 1, 0⟩ (ExitReason.tp, 1) Side.buy () rfl
    (by norm_num [exitDecision, hit_sl, hit_tp]) (by norm_num) rfl

end OandaBot
